import Mathlib

/-!
Verification of the cifar10 fixed-point training driver
(`examples/cifar10/main.py` of nics_fix_pytorch) against its
natural-language specification.

The driver code is embedded shallowly: pure helpers become Lean
functions, the training/evaluation phases become event traces, and the
epoch loop becomes a fold over the list of per-epoch validation
precisions.  Floating-point values are modelled as rationals.  Parts of
the `nics_fix_pt` library that the driver calls but whose code is not
part of this repository snapshot (the quantizer, the range estimator,
the `set_fix_method` dispatch, the `FixNet` constructor) are modelled
from the specification text and marked as such in their doc comments.
-/

namespace NicsFix

/-- Fix methods of the `nics_fix_pt` library: `FIX_NONE` (pass-through),
`FIX_AUTO` (recompute range each use, then quantize), `FIX_FIXED`
(quantize with the frozen range). -/
inductive FixMethod where
| FIX_NONE : FixMethod
| FIX_AUTO : FixMethod
| FIX_FIXED : FixMethod
deriving DecidableEq, Repr

export FixMethod (FIX_NONE FIX_AUTO FIX_FIXED)

/-- An override table for `set_fix_method`: module-type name to a list of
(tensor-role name, method) pairs, as in the `method_by_type` keyword of
the driver. -/
abbrev MethodByType := List (String × List (String × FixMethod))

/-- One call of `model.set_fix_method(default, method_by_type=...)`:
the default method and the override table. -/
structure SetFixMethodCall where
  default_method : FixMethod
  method_by_type : MethodByType
deriving DecidableEq, Repr

/-- Modelled from the spec: `set_fix_method(default_mode, overrides)`
applies the override mapping keyed by (module type, role) on top of the
default for every policy in the tree; unmatched policies take the
default. -/
def resolveMethod (c : SetFixMethodCall) (ty role : String) : FixMethod :=
  match (c.method_by_type.lookup ty).bind (fun m => m.lookup role) with
  | some m => m
  | none => c.default_method

/-- The call issued by `_set_fix_method_train_ori`:
`model.set_fix_method(nfp.FIX_AUTO)`, no overrides. -/
def set_fix_method_train_ori_call : SetFixMethodCall :=
  ⟨FIX_AUTO, []⟩

/-- The call issued by `_set_fix_method_eval_ori`:
`model.set_fix_method(nfp.FIX_FIXED)`, no overrides. -/
def set_fix_method_eval_ori_call : SetFixMethodCall :=
  ⟨FIX_FIXED, []⟩

/-- The call issued by the alternative `_set_fix_method_train` (present
in the file but not invoked by `train`): AUTO default with BatchNorm
running statistics overridden to NONE. -/
def set_fix_method_train_call : SetFixMethodCall :=
  ⟨FIX_AUTO,
   [("BatchNorm2d_fix",
     [("weight", FIX_AUTO), ("bias", FIX_AUTO),
      ("running_mean", FIX_NONE), ("running_var", FIX_NONE)])]⟩

/-- The call issued by the alternative `_set_fix_method_eval` (present
in the file but not invoked by `validate`): FIXED default with BatchNorm
running statistics overridden to AUTO. -/
def set_fix_method_eval_call : SetFixMethodCall :=
  ⟨FIX_FIXED,
   [("BatchNorm2d_fix",
     [("weight", FIX_FIXED), ("bias", FIX_FIXED),
      ("running_mean", FIX_AUTO), ("running_var", FIX_AUTO)])]⟩

/-- Observable events of one training or evaluation phase: the mode-set
call at the top of the routine, followed by the processing of each
batch. -/
inductive PhaseEvent where
| mode_set (c : SetFixMethodCall) : PhaseEvent
| process_batch (i : Nat) : PhaseEvent
deriving DecidableEq, Repr

/-- The event trace of one call of `train`: it first calls
`_set_fix_method_train_ori(model)` and then iterates over the
`nb` batches of the train loader. -/
def train_trace (nb : Nat) : List PhaseEvent :=
  PhaseEvent.mode_set set_fix_method_train_ori_call ::
    (List.range nb).map PhaseEvent.process_batch

/-- The event trace of one call of `validate`: it first calls
`_set_fix_method_eval_ori(model)` and then iterates over the
`nb` batches of the validation loader. -/
def validate_trace (nb : Nat) : List PhaseEvent :=
  PhaseEvent.mode_set set_fix_method_eval_ori_call ::
    (List.range nb).map PhaseEvent.process_batch

example : resolveMethod set_fix_method_train_ori_call "BatchNorm2d_fix" "running_mean"
    = FIX_AUTO := by decide

example : resolveMethod set_fix_method_train_call "BatchNorm2d_fix" "running_mean"
    = FIX_NONE := by decide

example : resolveMethod set_fix_method_train_call "Conv2d_fix" "weight"
    = FIX_AUTO := by decide

/-- Modelled from the spec: the Quantizer of the fixed-point library
(code not under this snapshot).  Given bitwidth `b` and the range
descriptor value `v`, it computes `scale = v / (2^(b-1) - 1)` and
returns `round(x / scale) * scale` clamped to the representable signed
range `[-(2^(b-1)-1), 2^(b-1)-1] * scale`. -/
def quantize (b : Nat) (v : ℚ) (x : ℚ) : ℚ :=
  let n : ℤ := 2 ^ (b - 1) - 1
  let scale : ℚ := v / (n : ℚ)
  let k : ℤ := round (x / scale)
  max (-(n : ℚ) * scale) (min ((n : ℚ) * scale) ((k : ℚ) * scale))

example : quantize 8 10 10 = 10 := by
  norm_num [quantize, max_def, min_def, round_eq]

/-- The parsed command-line arguments of the driver, with the argparse
defaults of `main.py`: `--float-bn` and `--fix-grad` default to False,
`--range-method` and `--grad-range-method` to 0, `--bitwidth-data` to 8,
`--bitwidth-grad` to 16, `--lr` to 0.05, `--start-epoch` to 0, `--epoch`
to 100, `--resume` and `--pretrained` to the empty string. -/
structure Args where
  float_bn : Bool := false
  fix_grad : Bool := false
  range_method : Int := 0
  grad_range_method : Int := 0
  bitwidth_data : Int := 8
  bitwidth_grad : Int := 16
  lr : ℚ := 1 / 20
  start_epoch : Nat := 0
  epoch : Nat := 100
  resume : String := ""
  pretrained : String := ""

/-- The argparse defaults: the `Args` value produced when no optional
flag is supplied on the command line. -/
def default_args : Args := {}

/-- The declared `choices` of the `--range-method` and
`--grad-range-method` options: the integers 0 (RANGE_MAX),
1 (RANGE_3SIGMA) and 3 (RANGE_SWEEP). -/
def range_method_choices : List Int := [0, 1, 3]

/-- A value held by an argparse option that declares integer `choices`
but no `type` converter: the integer default when the flag is absent, or
the raw command-line string when it is supplied. -/
inductive ArgValue where
| intVal (i : Int) : ArgValue
| strVal (s : String) : ArgValue
deriving DecidableEq, Repr

/-- Membership of an argparse value in an integer `choices` list.  A raw
string is never equal to an integer choice (the option declares no
`type` converter, so a supplied value stays a string). -/
def choiceMember : ArgValue → List Int → Bool
| ArgValue.intVal i, cs => cs.contains i
| ArgValue.strVal _, _ => false

/-- Argparse handling of the `--range-method` style options of the
driver: an absent flag yields the integer default; a supplied flag keeps
the raw string and rejects it unless it is a member of the integer
`choices` list. -/
def parse_choice_arg (supplied : Option String) (dflt : Int) (cs : List Int) :
    Except String ArgValue :=
  match supplied with
  | none => Except.ok (ArgValue.intVal dflt)
  | some s =>
      if choiceMember (ArgValue.strVal s) cs then Except.ok (ArgValue.strVal s)
      else Except.error "argparse: invalid choice"

/-- The fixed-point configuration a `FixNet` is constructed with, taken
from the keyword arguments of the `FixNet(...)` call in `main`. -/
structure FixConfig where
  fix_bn : Bool
  fix_grad : Bool
  range_method : Int
  grad_range_method : Int
  bitwidth_data : Int
  bitwidth_grad : Int
deriving DecidableEq, Repr

/-- Modelled from the spec: the `FixNet` constructor of the fixed-point
library (code not under this snapshot) rejects a bitwidth of zero or
less as a configuration error at construction time, never silently
replacing it by a default; otherwise the configuration is exactly the
construction arguments. -/
def FixNet_construct (fix_bn fix_grad : Bool) (rm grm : Int) (bwd bwg : Int) :
    Except String FixConfig :=
  if bwd ≤ 0 ∨ bwg ≤ 0 then
    Except.error "configuration error: bitwidth must be positive"
  else
    Except.ok ⟨fix_bn, fix_grad, rm, grm, bwd, bwg⟩

/-- The `FixNet(...)` call of `main`: `fix_bn=not args.float_bn`,
`fix_grad=args.fix_grad`, and the range methods and bitwidths straight
from the arguments. -/
def model_construct (a : Args) : Except String FixConfig :=
  FixNet_construct (!a.float_bn) a.fix_grad a.range_method a.grad_range_method
    a.bitwidth_data a.bitwidth_grad

/-- Modelled from the spec: the backward hook of the fixed-point
library (code not under this snapshot).  If gradient quantization is
enabled, the gradient tensor is passed through the RangeEstimator /
Quantizer pair with the gradient bitwidth before being handed to the
optimizer; if it is disabled, the gradient is handed over unchanged.
The range estimator is abstracted as a function of the tensor. -/
def backward_grad (estimator : List ℚ → ℚ) (cfg : FixConfig) (g : List ℚ) :
    List ℚ :=
  if cfg.fix_grad then g.map (quantize cfg.bitwidth_grad.toNat (estimator g))
  else g

/-- The `AverageMeter` of the driver: current value, running average,
running sum and running count. -/
structure AverageMeter where
  val : ℚ
  avg : ℚ
  sum : ℚ
  count : ℚ
deriving DecidableEq, Repr

/-- `AverageMeter.reset`: all four fields are set to 0 (also the state
right after `__init__`, which calls `reset`). -/
def AverageMeter.reset : AverageMeter := ⟨0, 0, 0, 0⟩

/-- `AverageMeter.update(val, n)`: `val` is stored, `val * n` is added
to the sum, `n` to the count, and the average becomes `sum / count`. -/
def AverageMeter.update (m : AverageMeter) (v : ℚ) (n : ℚ) : AverageMeter :=
  let s := m.sum + v * n
  let c := m.count + n
  ⟨v, s / c, s, c⟩

/-- A sequence of `update` calls, given as a list of `(val, n)` pairs. -/
def AverageMeter.run (m : AverageMeter) (l : List (ℚ × ℚ)) : AverageMeter :=
  l.foldl (fun acc p => acc.update p.1 p.2) m

example : (AverageMeter.reset.run [(2, 1), (5, 3)]).avg = 17 / 4 := by
  norm_num [AverageMeter.run, AverageMeter.update, AverageMeter.reset]

/-- One optimizer parameter group, reduced to the field the driver
touches: its learning rate. -/
structure ParamGroup where
  lr : ℚ
deriving DecidableEq, Repr

/-- An optimizer: its list of parameter groups. -/
structure Optimizer where
  param_groups : List ParamGroup
deriving DecidableEq, Repr

/-- `adjust_learning_rate(optimizer, epoch)`: computes
`lr = args.lr * (0.5 ** (epoch // 10))` and assigns it to the `lr` field
of every parameter group of the optimizer. -/
def adjust_learning_rate (opt : Optimizer) (lr0 : ℚ) (epoch : Nat) : Optimizer :=
  let lr := lr0 * (1 / 2) ^ (epoch / 10)
  ⟨opt.param_groups.map (fun g => { g with lr := lr })⟩

/-- One iteration of the epoch loop of `main` after `validate` returned
precision `p`, starting from running best `best`:
`is_best = prec1 > best_prec1`, `best_prec1 = max(prec1, best_prec1)`,
and a checkpoint is saved iff `best_prec1 > 90 and is_best`.  The
returned list holds, per epoch, whether `save_checkpoint` was called. -/
def mainLoop (best : ℚ) : List ℚ → List Bool
| [] => []
| p :: rest =>
    let is_best := decide (best < p)
    let best2 := max p best
    (decide (90 < best2) && is_best) :: mainLoop best2 rest

example : mainLoop 90 [85, 91, 181/2, 92, 92] = [false, true, false, true, false] := by
  norm_num [mainLoop, max_def]

/-- The contents of a checkpoint blob as saved by `save_checkpoint`:
epoch counter, best precision, and the state dict of tensor values. -/
structure Checkpoint where
  epoch : Nat
  best_prec1 : ℚ
  state_dict : List (String × ℚ)

/-- The mutable state of a constructed model: its fixed-point
configuration and its tensor values. -/
structure ModelState where
  config : FixConfig
  tensors : List (String × ℚ)

/-- Modelled from the spec: `model.load_state_dict(sd)` restores the
trainable tensor values of the core from the state dict; the policy
configuration (bitwidth, method) is not part of the state dict and is
left as derived from the construction arguments. -/
def load_state_dict (m : ModelState) (sd : List (String × ℚ)) : ModelState :=
  { m with tensors := sd }

/-- The run state of `main` around the checkpoint-loading section:
the model, `args.start_epoch` and the global `best_prec1`. -/
structure RunState where
  model : ModelState
  start_epoch : Nat
  best_prec1 : ℚ

/-- The `if args.resume:` block of `main`: nothing happens when the path
is empty; when the file exists, the checkpoint is loaded and
`start_epoch`, `best_prec1` and the model state dict are restored; when
it does not exist, `assert os.path.isfile(args.resume)` fails and the
program dies with an `AssertionError`. -/
def resume_load (resume : String) (isfile : String → Bool)
    (loadCk : String → Checkpoint) (st : RunState) : Except String RunState :=
  if resume = "" then Except.ok st
  else if isfile resume then
    let ck := loadCk resume
    Except.ok
      { st with
        start_epoch := ck.epoch
        best_prec1 := ck.best_prec1
        model := load_state_dict st.model ck.state_dict }
  else Except.error "AssertionError: no checkpoint found at resume path"

/-- The `if args.pretrained:` block of `main`: like `resume_load`, but
only the state dict is restored (the epoch and best-precision lines are
commented out in the source); a missing file again fails the assert. -/
def pretrained_load (pretrained : String) (isfile : String → Bool)
    (loadCk : String → Checkpoint) (st : RunState) : Except String RunState :=
  if pretrained = "" then Except.ok st
  else if isfile pretrained then
    Except.ok { st with model := load_state_dict st.model (loadCk pretrained).state_dict }
  else Except.error "AssertionError: no checkpoint found at pretrained path"

/-- The outcome of a completed run of `main`: the run state after the
loading section and the per-epoch checkpoint-save flags of the epoch
loop. -/
structure TrainRun where
  final_state : RunState
  save_flags : List Bool

/-- The startup and epoch loop of `main`, abstracted over the
filesystem (`isfile`, `loadCk`), the initial tensor values of the
freshly constructed net, and the per-epoch validation precisions
`precs`: construct the `FixNet` from the arguments, run the resume
block and then the pretrained block (an assertion failure terminates
the program before any training or evaluation step), then run the
epoch loop from the resulting `best_prec1`. -/
def main_run (a : Args) (isfile : String → Bool) (loadCk : String → Checkpoint)
    (init_ts : List (String × ℚ)) (precs : List ℚ) : Except String TrainRun :=
  match model_construct a with
  | Except.error e => Except.error e
  | Except.ok cfg =>
      let init : RunState := ⟨⟨cfg, init_ts⟩, a.start_epoch, 90⟩
      match resume_load a.resume isfile loadCk init with
      | Except.error e => Except.error e
      | Except.ok st1 =>
          match pretrained_load a.pretrained isfile loadCk st1 with
          | Except.error e => Except.error e
          | Except.ok st2 => Except.ok ⟨st2, mainLoop st2.best_prec1 precs⟩

/-- Claim C1, counterexample: the mode-set call issued by `train` is
`_set_fix_method_train_ori`, which resolves the BatchNorm running
statistics to `FIX_AUTO`, not to the pass-through `FIX_NONE` — the
train routine does not exempt them from quantization. -/
theorem C1_counterexample :
    (train_trace 1).head? = some (PhaseEvent.mode_set set_fix_method_train_ori_call) ∧
    resolveMethod set_fix_method_train_ori_call "BatchNorm2d_fix" "running_mean" = FIX_AUTO ∧
    resolveMethod set_fix_method_train_ori_call "BatchNorm2d_fix" "running_var" = FIX_AUTO ∧
    resolveMethod set_fix_method_train_ori_call "BatchNorm2d_fix" "running_mean" ≠ FIX_NONE := by
  exact ⟨rfl, rfl, rfl, by decide⟩

/-- Claim C1 (amended): during every training phase the mode-set call
issued by `train` (`_set_fix_method_train_ori`) applies `FIX_AUTO` to
every policy, the BatchNorm running statistics included — no policy is
exempted; during every evaluation phase the mode-set call issued by
`validate` (`_set_fix_method_eval_ori`) applies `FIX_FIXED` to every
policy, so the running statistics are quantized at evaluation.  The
exempting pair `_set_fix_method_train` / `_set_fix_method_eval` exists
in the file but is not the pair that `train` / `validate` call. -/
theorem C1_train_mode_no_bn_exemption (nb : Nat) :
    (train_trace nb).head? = some (PhaseEvent.mode_set set_fix_method_train_ori_call) ∧
    (∀ ty role, resolveMethod set_fix_method_train_ori_call ty role = FIX_AUTO) ∧
    (validate_trace nb).head? = some (PhaseEvent.mode_set set_fix_method_eval_ori_call) ∧
    (∀ ty role, resolveMethod set_fix_method_eval_ori_call ty role = FIX_FIXED) ∧
    resolveMethod set_fix_method_eval_ori_call "BatchNorm2d_fix" "running_mean" ≠ FIX_NONE ∧
    resolveMethod set_fix_method_eval_ori_call "BatchNorm2d_fix" "running_var" ≠ FIX_NONE := by
  exact ⟨rfl, fun _ _ => rfl, rfl, fun _ _ => rfl, by decide, by decide⟩

/-- Claim C2: `train` issues `set_fix_method(FIX_AUTO)` and `validate`
issues `set_fix_method(FIX_FIXED)` as their first event, resolving every
policy to AUTO respectively FIXED, and every batch-processing event of
either phase occurs strictly after that mode-set event. -/
theorem C2_mode_set_before_batches (nb : Nat) :
    (train_trace nb).get? 0 = some (PhaseEvent.mode_set set_fix_method_train_ori_call) ∧
    (∀ ty role, resolveMethod set_fix_method_train_ori_call ty role = FIX_AUTO) ∧
    (validate_trace nb).get? 0 = some (PhaseEvent.mode_set set_fix_method_eval_ori_call) ∧
    (∀ ty role, resolveMethod set_fix_method_eval_ori_call ty role = FIX_FIXED) ∧
    (∀ i j, (train_trace nb).get? i = some (PhaseEvent.process_batch j) → 0 < i) ∧
    (∀ i j, (validate_trace nb).get? i = some (PhaseEvent.process_batch j) → 0 < i) := by
  refine ⟨rfl, fun _ _ => rfl, rfl, fun _ _ => rfl, ?_, ?_⟩
  · intro i j h
    cases i with
    | zero => simp [train_trace] at h
    | succ k => exact Nat.succ_pos k
  · intro i j h
    cases i with
    | zero => simp [validate_trace] at h
    | succ k => exact Nat.succ_pos k

/-- Claim C3: a run given a resume path or a pretrained path that does
not name an existing file fails at startup (the failing
`assert os.path.isfile(...)`) and the whole run is an error — the epoch
loop never starts, no training or evaluation step happens, and the load
is not retried. -/
theorem C3_missing_checkpoint_is_fatal (a : Args) (isfile : String → Bool)
    (loadCk : String → Checkpoint) (init_ts : List (String × ℚ)) (precs : List ℚ)
    (hmiss : (a.resume ≠ "" ∧ isfile a.resume = false) ∨
             (a.pretrained ≠ "" ∧ isfile a.pretrained = false)) :
    ∃ e, main_run a isfile loadCk init_ts precs = Except.error e := by
  unfold main_run
  cases hc : model_construct a with
  | error e => exact ⟨e, rfl⟩
  | ok cfg =>
      unfold resume_load pretrained_load
      rcases hmiss with ⟨hne, hf⟩ | ⟨hne, hf⟩
      · simp [hne, hf]
      · by_cases hr : a.resume = ""
        · simp [hr, hne, hf]
        · by_cases hif : isfile a.resume
          · simp [hr, hif, hne, hf]
          · simp [hr, hif]

/-- Claim C3 witness: a concrete run with a nonexistent resume file
fails with an error. -/
theorem C3_witness :
    (("ck.tar" : String) ≠ "" ∧ (fun _ : String => false) "ck.tar" = false) ∧
    ∃ e, main_run { resume := "ck.tar" } (fun _ => false) (fun _ => ⟨0, 0, []⟩) [] []
          = Except.error e :=
  ⟨⟨by decide, rfl⟩,
   C3_missing_checkpoint_is_fatal { resume := "ck.tar" } (fun _ => false)
     (fun _ => ⟨0, 0, []⟩) [] [] (Or.inl ⟨by decide, rfl⟩)⟩

/-- Claim C4: a configuration with bitwidth ≤ 0 (data or gradient) is
rejected by the `FixNet` construction with a configuration error and is
never an accepted configuration; a `--range-method` selection supplied
on the command line is checked against the declared choices {0, 1, 3}
(the option declares integer choices and no type converter, so every
supplied raw string — in particular every selection outside the valid
set — fails the membership test) and is rejected by argparse, never
silently replaced by the default. -/
theorem C4_invalid_config_rejected (a : Args) (s : String)
    (hbw : a.bitwidth_data ≤ 0 ∨ a.bitwidth_grad ≤ 0) :
    (∃ e, model_construct a = Except.error e) ∧
    (∀ cfg, model_construct a ≠ Except.ok cfg) ∧
    (∃ e, parse_choice_arg (some s) 0 range_method_choices = Except.error e) ∧
    (∀ v, parse_choice_arg (some s) 0 range_method_choices ≠ Except.ok v) := by
  have hcon : model_construct a
      = Except.error "configuration error: bitwidth must be positive" := by
    unfold model_construct FixNet_construct
    rw [if_pos hbw]
  have hpar : parse_choice_arg (some s) 0 range_method_choices
      = Except.error "argparse: invalid choice" := rfl
  refine ⟨⟨_, hcon⟩, ?_, ⟨_, hpar⟩, ?_⟩
  · intro cfg h
    rw [hcon] at h
    exact Except.noConfusion h
  · intro v h
    rw [hpar] at h
    exact Except.noConfusion h

/-- Claim C4 witness: bitwidth 0 and the supplied selection "2" are
both rejected. -/
theorem C4_witness :
    (({ bitwidth_data := 0 } : Args).bitwidth_data ≤ 0 ∨
     ({ bitwidth_data := 0 } : Args).bitwidth_grad ≤ 0) ∧
    ((∃ e, model_construct { bitwidth_data := 0 } = Except.error e) ∧
     (∀ cfg, model_construct { bitwidth_data := 0 } ≠ Except.ok cfg) ∧
     (∃ e, parse_choice_arg (some "2") 0 range_method_choices = Except.error e) ∧
     (∀ v, parse_choice_arg (some "2") 0 range_method_choices ≠ Except.ok v)) :=
  ⟨Or.inl (by norm_num),
   C4_invalid_config_rejected { bitwidth_data := 0 } "2" (Or.inl (by norm_num))⟩

/-- Claim C6: with gradient quantization disabled — the `fix_grad`
value of a run whose `--fix-grad` flag is absent equals the argparse
default, False — the backward-pass gradient handed to the optimizer is
bit-identical to the full-precision gradient: the backward hook is the
identity, whatever the range estimator and the gradient tensor. -/
theorem C6_default_no_grad_quantization (a : Args) (cfg : FixConfig)
    (est : List ℚ → ℚ) (g : List ℚ)
    (hdef : a.fix_grad = default_args.fix_grad)
    (hc : model_construct a = Except.ok cfg) :
    backward_grad est cfg g = g := by
  have hfg : cfg.fix_grad = false := by
    unfold model_construct FixNet_construct at hc
    split at hc
    · exact absurd hc (by simp)
    · cases hc
      simpa [default_args] using hdef
  simp [backward_grad, hfg]

/-- Claim C6 witness: the default configuration leaves a concrete
gradient tensor unchanged. -/
theorem C6_witness :
    (default_args.fix_grad = default_args.fix_grad ∧
     model_construct default_args = Except.ok ⟨true, false, 0, 0, 8, 16⟩) ∧
    backward_grad (fun _ => 1) ⟨true, false, 0, 0, 8, 16⟩ [1, 2, 3] = [1, 2, 3] :=
  ⟨⟨rfl, by norm_num [model_construct, FixNet_construct, default_args]⟩,
   C6_default_no_grad_quantization default_args ⟨true, false, 0, 0, 8, 16⟩
     (fun _ => 1) [1, 2, 3] rfl
     (by norm_num [model_construct, FixNet_construct, default_args])⟩

/-- Claim C10: `adjust_learning_rate` sets the learning rate of every
parameter group to `initial_lr * 0.5 ^ (epoch / 10)`; hence all groups
carry the same rate, and for a nonnegative initial rate the rate at a
later epoch never exceeds the rate at an earlier epoch. -/
theorem C10_adjust_learning_rate (opt : Optimizer) (lr0 : ℚ) (e e2 : Nat)
    (h0 : 0 ≤ lr0) (he : e ≤ e2) :
    (∀ g ∈ (adjust_learning_rate opt lr0 e).param_groups,
        g.lr = lr0 * (1 / 2) ^ (e / 10)) ∧
    (∀ g ∈ (adjust_learning_rate opt lr0 e).param_groups,
      ∀ g2 ∈ (adjust_learning_rate opt lr0 e).param_groups, g.lr = g2.lr) ∧
    (∀ g ∈ (adjust_learning_rate opt lr0 e2).param_groups,
      ∀ g2 ∈ (adjust_learning_rate opt lr0 e).param_groups, g.lr ≤ g2.lr) := by
  have hval : ∀ ep : Nat, ∀ g ∈ (adjust_learning_rate opt lr0 ep).param_groups,
      g.lr = lr0 * (1 / 2) ^ (ep / 10) := by
    intro ep g hg
    simp only [adjust_learning_rate, List.mem_map] at hg
    obtain ⟨g0, -, hg0⟩ := hg
    exact hg0 ▸ rfl
  refine ⟨hval e, ?_, ?_⟩
  · intro g hg g2 hg2
    rw [hval e g hg, hval e g2 hg2]
  · intro g hg g2 hg2
    rw [hval e2 g hg, hval e g2 hg2]
    refine mul_le_mul_of_nonneg_left ?_ h0
    exact pow_le_pow_of_le_one (by norm_num) (by norm_num) (Nat.div_le_div_right he)

/-- Claim C10 witness: concrete schedule at epochs 0 and 15 with the
default initial rate 0.05. -/
theorem C10_witness :
    ((0 : ℚ) ≤ 1 / 20 ∧ (0 : Nat) ≤ 15) ∧
    ((∀ g ∈ (adjust_learning_rate ⟨[⟨1 / 20⟩]⟩ (1 / 20) 0).param_groups,
        g.lr = 1 / 20 * (1 / 2) ^ (0 / 10)) ∧
     (∀ g ∈ (adjust_learning_rate ⟨[⟨1 / 20⟩]⟩ (1 / 20) 0).param_groups,
       ∀ g2 ∈ (adjust_learning_rate ⟨[⟨1 / 20⟩]⟩ (1 / 20) 0).param_groups, g.lr = g2.lr) ∧
     (∀ g ∈ (adjust_learning_rate ⟨[⟨1 / 20⟩]⟩ (1 / 20) 15).param_groups,
       ∀ g2 ∈ (adjust_learning_rate ⟨[⟨1 / 20⟩]⟩ (1 / 20) 0).param_groups, g.lr ≤ g2.lr)) :=
  ⟨⟨by norm_num, by decide⟩,
   C10_adjust_learning_rate ⟨[⟨1 / 20⟩]⟩ (1 / 20) 0 15 (by norm_num) (by decide)⟩

theorem AverageMeter.run_count (l : List (ℚ × ℚ)) (m : AverageMeter) :
    (m.run l).count = m.count + (l.map Prod.snd).sum := by
  induction l generalizing m with
  | nil => simp [AverageMeter.run]
  | cons x rest ih =>
      have hstep : AverageMeter.run m (x :: rest)
          = AverageMeter.run (m.update x.1 x.2) rest := rfl
      rw [hstep, ih]
      simp [AverageMeter.update]
      ring

theorem AverageMeter.run_sum (l : List (ℚ × ℚ)) (m : AverageMeter) :
    (m.run l).sum = m.sum + (l.map (fun x => x.1 * x.2)).sum := by
  induction l generalizing m with
  | nil => simp [AverageMeter.run]
  | cons x rest ih =>
      have hstep : AverageMeter.run m (x :: rest)
          = AverageMeter.run (m.update x.1 x.2) rest := rfl
      rw [hstep, ih]
      simp [AverageMeter.update]
      ring

theorem AverageMeter.run_avg (l : List (ℚ × ℚ)) (m : AverageMeter) (h : l ≠ []) :
    (m.run l).avg = (m.run l).sum / (m.run l).count := by
  induction l generalizing m with
  | nil => exact absurd rfl h
  | cons x rest ih =>
      cases rest with
      | nil => simp [AverageMeter.run, AverageMeter.update]
      | cons y t =>
          have hstep : AverageMeter.run m (x :: y :: t)
              = AverageMeter.run (m.update x.1 x.2) (y :: t) := rfl
          rw [hstep]
          exact ih _ (by simp)

/-- Claim C9: after `reset` all four fields of an `AverageMeter` are 0;
after any sequence of `update(val_i, n_i)` calls with positive `n_i`,
`count` is the sum of the `n_i`, `sum` is the sum of `val_i * n_i`, and
`avg` equals `sum / count`; at every update of such a sequence the new
count (the divisor of the average) is positive, so no update divides by
zero. -/
theorem C9_average_meter (l : List (ℚ × ℚ)) (hn : ∀ x ∈ l, 0 < x.2) :
    AverageMeter.reset.val = 0 ∧ AverageMeter.reset.avg = 0 ∧
    AverageMeter.reset.sum = 0 ∧ AverageMeter.reset.count = 0 ∧
    (AverageMeter.reset.run l).count = (l.map Prod.snd).sum ∧
    (AverageMeter.reset.run l).sum = (l.map (fun x => x.1 * x.2)).sum ∧
    (AverageMeter.reset.run l).avg =
      (AverageMeter.reset.run l).sum / (AverageMeter.reset.run l).count ∧
    (∀ pre x post, l = pre ++ x :: post →
      0 < (AverageMeter.reset.run (pre ++ [x])).count) := by
  refine ⟨rfl, rfl, rfl, rfl, ?_, ?_, ?_, ?_⟩
  · rw [AverageMeter.run_count]
    simp [AverageMeter.reset]
  · rw [AverageMeter.run_sum]
    simp [AverageMeter.reset]
  · cases l with
    | nil => simp [AverageMeter.run, AverageMeter.reset]
    | cons x rest => exact AverageMeter.run_avg _ _ (by simp)
  · intro pre x post hl
    rw [AverageMeter.run_count]
    simp only [AverageMeter.reset, zero_add]
    refine List.sum_pos _ ?_ (by simp)
    intro n hmem
    simp only [List.map_append, List.mem_append, List.mem_map] at hmem
    rcases hmem with ⟨y, hy, hyn⟩ | ⟨y, hy, hyn⟩
    · exact hyn ▸ hn y (by simp [hl, hy])
    · simp only [List.mem_singleton] at hy
      exact hyn ▸ hy ▸ hn x (by simp [hl])

/-- Claim C9 witness: two updates with positive counts from reset. -/
theorem C9_witness :
    (∀ x ∈ [((2 : ℚ), (1 : ℚ)), (5, 3)], 0 < x.2) ∧
    (AverageMeter.reset.val = 0 ∧ AverageMeter.reset.avg = 0 ∧
     AverageMeter.reset.sum = 0 ∧ AverageMeter.reset.count = 0 ∧
     (AverageMeter.reset.run [((2 : ℚ), (1 : ℚ)), (5, 3)]).count
        = ([((2 : ℚ), (1 : ℚ)), (5, 3)].map Prod.snd).sum ∧
     (AverageMeter.reset.run [((2 : ℚ), (1 : ℚ)), (5, 3)]).sum
        = ([((2 : ℚ), (1 : ℚ)), (5, 3)].map (fun x => x.1 * x.2)).sum ∧
     (AverageMeter.reset.run [((2 : ℚ), (1 : ℚ)), (5, 3)]).avg =
       (AverageMeter.reset.run [((2 : ℚ), (1 : ℚ)), (5, 3)]).sum /
         (AverageMeter.reset.run [((2 : ℚ), (1 : ℚ)), (5, 3)]).count ∧
     (∀ pre x post, [((2 : ℚ), (1 : ℚ)), (5, 3)] = pre ++ x :: post →
       0 < (AverageMeter.reset.run (pre ++ [x])).count)) :=
  ⟨by norm_num, C9_average_meter [((2 : ℚ), (1 : ℚ)), (5, 3)] (by norm_num)⟩

/-- The running best precision after an epoch list, as maintained by
`best_prec1 = max(prec1, best_prec1)` across the loop of `main`. -/
def runBest (best : ℚ) (l : List ℚ) : ℚ :=
  l.foldl (fun b p => max p b) best

theorem mainLoop_append (b : ℚ) (l1 l2 : List ℚ) :
    mainLoop b (l1 ++ l2) = mainLoop b l1 ++ mainLoop (runBest b l1) l2 := by
  induction l1 generalizing b with
  | nil => rfl
  | cons p rest ih =>
      have h1 : mainLoop b ((p :: rest) ++ l2)
          = (decide ((90 : ℚ) < max p b) && decide (b < p)) :: mainLoop (max p b) (rest ++ l2) := rfl
      have h2 : mainLoop b (p :: rest)
          = (decide ((90 : ℚ) < max p b) && decide (b < p)) :: mainLoop (max p b) rest := rfl
      have h3 : runBest b (p :: rest) = runBest (max p b) rest := rfl
      rw [h1, h2, h3, ih]
      rfl

theorem mainLoop_length (b : ℚ) (l : List ℚ) : (mainLoop b l).length = l.length := by
  induction l generalizing b with
  | nil => rfl
  | cons p rest ih => simp [mainLoop, ih]

theorem le_runBest (b : ℚ) (l : List ℚ) : b ≤ runBest b l := by
  induction l generalizing b with
  | nil => exact le_refl b
  | cons q rest ih =>
      have h3 : runBest b (q :: rest) = runBest (max q b) rest := rfl
      rw [h3]
      exact le_trans (le_max_right q b) (ih (max q b))

theorem runBest_lt_iff (l : List ℚ) (b p : ℚ) :
    runBest b l < p ↔ b < p ∧ ∀ q ∈ l, q < p := by
  induction l generalizing b with
  | nil => simp [runBest]
  | cons q rest ih =>
      have h3 : runBest b (q :: rest) = runBest (max q b) rest := rfl
      rw [h3, ih, max_lt_iff]
      constructor
      · rintro ⟨⟨hq, hb⟩, hrest⟩
        exact ⟨hb, fun r hr => by
          rcases List.mem_cons.mp hr with h | h
          · exact h ▸ hq
          · exact hrest r h⟩
      · rintro ⟨hb, hall⟩
        exact ⟨⟨hall q (by simp), hb⟩, fun r hr => hall r (by simp [hr])⟩

/-- Claim C8: in the epoch loop of `main` with `best_prec1` initialized
to 90, epoch number `prev.length` saves a checkpoint iff its validation
precision strictly exceeds both 90 and the validation precision of every
previous epoch; a run whose validation precision never exceeds 90 saves no
checkpoint at all. -/
theorem C8_checkpoint_only_on_new_best (prev rest precs : List ℚ) (p : ℚ)
    (hall : ∀ q ∈ precs, q ≤ 90) :
    ((mainLoop 90 (prev ++ p :: rest))[prev.length]? = some true ↔
      (90 < p ∧ ∀ q ∈ prev, q < p)) ∧
    (∀ flag ∈ mainLoop 90 precs, flag = false) := by
  constructor
  · rw [mainLoop_append]
    rw [List.getElem?_append_right (by rw [mainLoop_length])]
    rw [mainLoop_length, Nat.sub_self]
    have hB : (90 : ℚ) ≤ runBest 90 prev := le_runBest _ _
    simp only [mainLoop, List.getElem?_cons_zero, Option.some_inj, Bool.and_eq_true,
      decide_eq_true_eq]
    rw [runBest_lt_iff]
    constructor
    · rintro ⟨-, h⟩
      exact h
    · rintro ⟨h90, hprev⟩
      exact ⟨lt_of_lt_of_le h90 (le_max_left p _), h90, hprev⟩
  · have aux : ∀ (l : List ℚ) (b : ℚ), (90 : ℚ) ≤ b → (∀ q ∈ l, q ≤ 90) →
        ∀ flag ∈ mainLoop b l, flag = false := by
      intro l
      induction l with
      | nil => intro b _ _ flag h; simp [mainLoop] at h
      | cons q t ih =>
          intro b hb hle flag hflag
          have hstep : mainLoop b (q :: t)
              = (decide ((90 : ℚ) < max q b) && decide (b < q)) :: mainLoop (max q b) t := rfl
          rw [hstep] at hflag
          rcases List.mem_cons.mp hflag with h | h
          · have hnq : ¬ (b < q) := not_lt.mpr (le_trans (hle q (by simp)) hb)
            rw [h]
            simp [hnq]
          · exact ih (max q b) (le_trans hb (le_max_right q b))
              (fun r hr => hle r (by simp [hr])) flag h
    exact aux precs 90 (le_refl _) hall

/-- Claim C8 witness: precision 92 at epoch 1 after a 91 epoch is a new
best above 90 and saves; a run capped at 90 saves nothing. -/
theorem C8_witness :
    (∀ q ∈ [(85 : ℚ), 90], q ≤ 90) ∧
    (((mainLoop 90 ([(91 : ℚ)] ++ (92 : ℚ) :: []))[([(91 : ℚ)]).length]? = some true ↔
       (90 < (92 : ℚ) ∧ ∀ q ∈ [(91 : ℚ)], q < 92)) ∧
     (∀ flag ∈ mainLoop 90 [(85 : ℚ), 90], flag = false)) :=
  ⟨by norm_num, C8_checkpoint_only_on_new_best [(91 : ℚ)] [] [(85 : ℚ), 90] 92 (by norm_num)⟩

/-- Claim C7: for every tensor value `x` and every bitwidth `b ≥ 2`,
applying the quantizer twice with the same bitwidth and the same range
descriptor value equals applying it once:
`quantize (quantize x) = quantize x`. -/
theorem C7_quantize_idempotent (b : Nat) (v x : ℚ) (hb : 2 ≤ b) :
    quantize b v (quantize b v x) = quantize b v x := by
  have hn : (1 : ℤ) ≤ 2 ^ (b - 1) - 1 := by
    have h1 : 1 ≤ b - 1 := by omega
    have h2 : (2 : ℤ) ^ 1 ≤ 2 ^ (b - 1) := pow_le_pow_right₀ (by norm_num) h1
    rw [pow_one] at h2
    omega
  simp only [quantize]
  set n : ℤ := 2 ^ (b - 1) - 1 with hn_def
  set s : ℚ := v / (n : ℚ) with hs_def
  set k : ℤ := round (x / s) with hk_def
  rcases lt_trichotomy s 0 with hsneg | hs0 | hspos
  · have hn0 : (0 : ℚ) < (n : ℚ) := by exact_mod_cast (by omega : (0 : ℤ) < n)
    have hns : (n : ℚ) * s < 0 := mul_neg_of_pos_of_neg hn0 hsneg
    have hlt : (n : ℚ) * s < -(n : ℚ) * s := by
      rw [neg_mul]
      linarith
    have hconst : ∀ t : ℚ, max (-(n : ℚ) * s) (min ((n : ℚ) * s) t) = -(n : ℚ) * s :=
      fun t => max_eq_left (le_trans (min_le_left _ _) hlt.le)
    simp only [hconst]
  · rw [hs0]
    simp
  · have hcast : ∀ j : ℤ, max (-(n : ℚ) * s) (min ((n : ℚ) * s) ((j : ℚ) * s))
        = ((max (-n) (min n j) : ℤ) : ℚ) * s := by
      intro j
      push_cast
      rw [max_mul_of_nonneg _ _ hspos.le, min_mul_of_nonneg _ _ hspos.le]
    simp only [hcast]
    set kc : ℤ := max (-n) (min n k) with hkc_def
    have hkc_le : kc ≤ n := max_le (by omega) (min_le_left _ _)
    have hkc_ge : -n ≤ kc := le_max_left _ _
    rw [mul_div_cancel_right₀ _ (ne_of_gt hspos), round_intCast]
    have h1 : min n kc = kc := min_eq_right hkc_le
    have h2 : max (-n) kc = kc := max_eq_right hkc_ge
    rw [h1, h2]

/-- Claim C7 witness: bitwidth 8, range value 10, input 1. -/
theorem C7_witness :
    2 ≤ 8 ∧ quantize 8 10 (quantize 8 10 1) = quantize 8 10 1 :=
  ⟨by decide, C7_quantize_idempotent 8 10 1 (by decide)⟩

/-- Claim C5: loading a checkpoint restores only the persisted tensor
values, the epoch counter and the best precision (resume), or only the
tensor values (pretrained); in both cases the policy configuration of
the model after the load is exactly the configuration derived from the
construction arguments — the load leaves it unchanged. -/
theorem C5_load_restores_only_state (a : Args) (cfg : FixConfig)
    (isfile : String → Bool) (loadCk : String → Checkpoint)
    (init_ts : List (String × ℚ)) (precs : List ℚ)
    (hc : model_construct a = Except.ok cfg) :
    (a.resume ≠ "" → isfile a.resume = true → a.pretrained = "" →
      ∃ run, main_run a isfile loadCk init_ts precs = Except.ok run ∧
        run.final_state.model.config = cfg ∧
        run.final_state.model.tensors = (loadCk a.resume).state_dict ∧
        run.final_state.start_epoch = (loadCk a.resume).epoch ∧
        run.final_state.best_prec1 = (loadCk a.resume).best_prec1) ∧
    (a.resume = "" → a.pretrained ≠ "" → isfile a.pretrained = true →
      ∃ run, main_run a isfile loadCk init_ts precs = Except.ok run ∧
        run.final_state.model.config = cfg ∧
        run.final_state.model.tensors = (loadCk a.pretrained).state_dict ∧
        run.final_state.start_epoch = a.start_epoch ∧
        run.final_state.best_prec1 = 90) := by
  constructor
  · intro hr hfi hp
    have hmain : main_run a isfile loadCk init_ts precs =
        Except.ok ⟨⟨⟨cfg, (loadCk a.resume).state_dict⟩,
                    (loadCk a.resume).epoch, (loadCk a.resume).best_prec1⟩,
                   mainLoop (loadCk a.resume).best_prec1 precs⟩ := by
      unfold main_run resume_load pretrained_load load_state_dict
      rw [hc]
      simp [hr, hfi, hp]
    exact ⟨_, hmain, rfl, rfl, rfl, rfl⟩
  · intro hr hp hfi
    have hmain : main_run a isfile loadCk init_ts precs =
        Except.ok ⟨⟨⟨cfg, (loadCk a.pretrained).state_dict⟩, a.start_epoch, 90⟩,
                   mainLoop 90 precs⟩ := by
      unfold main_run resume_load pretrained_load load_state_dict
      rw [hc]
      simp [hr, hfi, hp]
    exact ⟨_, hmain, rfl, rfl, rfl, rfl⟩

/-- Claim C5 witness: a concrete resume load keeps the constructed
configuration and takes epoch, best precision and tensors from the
checkpoint. -/
theorem C5_witness :
    model_construct { resume := "ck.tar" } = Except.ok ⟨true, false, 0, 0, 8, 16⟩ ∧
    ((({ resume := "ck.tar" } : Args).resume ≠ "" →
      (fun _ : String => true) ({ resume := "ck.tar" } : Args).resume = true →
      ({ resume := "ck.tar" } : Args).pretrained = "" →
      ∃ run, main_run { resume := "ck.tar" } (fun _ => true)
          (fun _ => ⟨7, 95, [("w", 1)]⟩) [("w", 0)] [] = Except.ok run ∧
        run.final_state.model.config = ⟨true, false, 0, 0, 8, 16⟩ ∧
        run.final_state.model.tensors
          = ((fun _ : String => (⟨7, 95, [("w", 1)]⟩ : Checkpoint))
              ({ resume := "ck.tar" } : Args).resume).state_dict ∧
        run.final_state.start_epoch
          = ((fun _ : String => (⟨7, 95, [("w", 1)]⟩ : Checkpoint))
              ({ resume := "ck.tar" } : Args).resume).epoch ∧
        run.final_state.best_prec1
          = ((fun _ : String => (⟨7, 95, [("w", 1)]⟩ : Checkpoint))
              ({ resume := "ck.tar" } : Args).resume).best_prec1) ∧
     (({ resume := "ck.tar" } : Args).resume = "" →
      ({ resume := "ck.tar" } : Args).pretrained ≠ "" →
      (fun _ : String => true) ({ resume := "ck.tar" } : Args).pretrained = true →
      ∃ run, main_run { resume := "ck.tar" } (fun _ => true)
          (fun _ => ⟨7, 95, [("w", 1)]⟩) [("w", 0)] [] = Except.ok run ∧
        run.final_state.model.config = ⟨true, false, 0, 0, 8, 16⟩ ∧
        run.final_state.model.tensors
          = ((fun _ : String => (⟨7, 95, [("w", 1)]⟩ : Checkpoint))
              ({ resume := "ck.tar" } : Args).pretrained).state_dict ∧
        run.final_state.start_epoch = ({ resume := "ck.tar" } : Args).start_epoch ∧
        run.final_state.best_prec1 = 90)) :=
  ⟨by norm_num [model_construct, FixNet_construct],
   C5_load_restores_only_state { resume := "ck.tar" } ⟨true, false, 0, 0, 8, 16⟩
     (fun _ => true) (fun _ => ⟨7, 95, [("w", 1)]⟩) [("w", 0)] []
     (by norm_num [model_construct, FixNet_construct])⟩

end NicsFix
